import Mathlib

/-!
Verification of the scooter-discovery pipeline of this repository.

The definitions below are a shallow embedding of `fetch_city_scooters.py`
(and of the identical stages 1-4 of `fetch_city_scooters` in
`fetch_scooters.py`, together with its stage 5 and its `save_geojson`).
Coordinates are modelled as rationals, JSON objects as structures with
optional fields (a missing key is `none`), Python dicts as
insertion-ordered association lists whose update keeps the original
position of an existing key (CPython semantics), and the network as an
oracle mapping each issued request to a response.  `sys.exit(1)` on an
authorization failure is modelled by the `exited` outcome, which carries
the list of requests issued so far and no accumulator.
-/

/-- A longitude/latitude pair, as the `[lon, lat]` lists of the source. -/
abbrev Point : Type := ℚ × ℚ

/-- An axis-aligned bounding box `[min_lon, min_lat, max_lon, max_lat]`. -/
structure Bbox where
  minLon : ℚ
  minLat : ℚ
  maxLon : ℚ
  maxLat : ℚ
deriving DecidableEq

/-- The slice of the `/offers/create` response used by stage 5 of
`fetch_scooters.py`: only the three fields that feed the city metadata
are modelled, the remaining offer fields do not affect any claim. -/
structure FullInfo where
  operator : String
  subscription : String
  currency : String
deriving DecidableEq

/-- The `city_metadata` dict built in stage 5 of `fetch_scooters.py`;
the empty dicts it starts from are modelled by empty strings. -/
structure CityMeta where
  operator : String
  subscription : String
  currency : String
deriving DecidableEq

/-- A JSON object of a discovery response: `id`, `geo`,
`payload.objects_count`, `payload.number`, `overlay_text`, and the
`full_info` entry added by stage 5.  A missing key is `none`. -/
structure Obj where
  id : Option String := none
  geo : Option Point := none
  objectsCount : Option Int := none
  payloadNumber : Option String := none
  overlayText : Option String := none
  fullInfo : Option FullInfo := none
deriving DecidableEq

/-- One entry of `objects.objects_by_type` in a discovery response. -/
structure ObjType where
  type : Option String
  objects : List Obj
deriving DecidableEq

/-- A parsed discovery response body.  Entries of the `objects` section
are dicts with an optional `geo` field; the source also accepts bare
coordinate pairs in either section, which are modelled (like the whole
`rowan` section) by the list of points `rowanPoints`. -/
structure ApiData where
  objectsByType : List ObjType
  rowanPoints : List Point
deriving DecidableEq

/-- Outcome of one HTTP call in `fetch_scooters`: status 405/401/403
(`sys.exit(1)`), a request exception (the function returns `None`), or a
parsed body. -/
inductive QResult where
  | authExpired
  | noData
  | ok (d : ApiData)
deriving DecidableEq

/-- One discovery request: the POSTed bbox, user location and zoom. -/
structure Request where
  bbox : Bbox
  userLocation : Point
  zoom : Nat
deriving DecidableEq

/-- A hot zone emitted by `simple_cluster_points`. -/
structure Zone where
  bbox : Bbox
  pointsCount : Nat
deriving DecidableEq

/-- The `all_scooters` dict: insertion-ordered, keyed by object id. -/
abbrev AccT : Type := List (String × Obj)

/-- Python dict lookup on an insertion-ordered association list. -/
def dlookup {α : Type} (k : String) : List (String × α) → Option α
  | [] => none
  | (k2, v) :: rest => if k2 = k then some v else dlookup k rest

/-- Python dict assignment `d[k] = v`: overwrite in place if the key is
present (keeping its position), otherwise append at the end. -/
def dinsert {α : Type} (k : String) (v : α) : List (String × α) → List (String × α)
  | [] => [(k, v)]
  | (k2, v2) :: rest => if k2 = k then (k, v) :: rest else (k2, v2) :: dinsert k v rest

/-- Python `int(...)` on a rational: truncation toward zero. -/
def pyInt (q : ℚ) : Int := if 0 ≤ q then ⌊q⌋ else ⌈q⌉

/-- Python `min` over a list (the source only applies it to non-empty
lists; the empty case is given a default). -/
def listMin : List ℚ → ℚ
  | [] => 0
  | x :: xs => xs.foldl min x

/-- The grid cell `(grid_x, grid_y)` assigned to a point in
`simple_cluster_points`. -/
def cellOf (minLon minLat g : ℚ) (p : Point) : Int × Int :=
  (pyInt ((p.1 - minLon) / g), pyInt ((p.2 - minLat) / g))

/-- The distinct cell keys in first-insertion order, as produced by
iterating over the `grid` dict of `simple_cluster_points`. -/
def dedupKeepFirst (l : List (Int × Int)) : List (Int × Int) :=
  l.foldl (fun acc c => if c ∈ acc then acc else acc ++ [c]) []

/-- The hot zone emitted for one non-empty grid cell: a bbox of side
`g` at the cell's lower-left corner, plus the number of points bucketed
into the cell. -/
def zoneOfCell (minLon minLat g : ℚ) (points : List Point) (c : Int × Int) : Zone :=
  { bbox := { minLon := minLon + c.1 * g, minLat := minLat + c.2 * g,
              maxLon := minLon + c.1 * g + g, maxLat := minLat + c.2 * g + g },
    pointsCount := points.countP (fun p => cellOf minLon minLat g p == c) }

/-- The source's `simple_cluster_points`: bucket the points into a grid
of cell side `g` anchored at the minimum corner and emit one zone per
non-empty cell (the `len(cell_points) > 0` test of the source is always
true for a cell of the grid dict). -/
def simple_cluster_points (points : List Point) (g : ℚ) : List Zone :=
  if points.isEmpty then []
  else
    let minLon := listMin (points.map Prod.fst)
    let minLat := listMin (points.map Prod.snd)
    (dedupKeepFirst (points.map (cellOf minLon minLat g))).map
      (zoneOfCell minLon minLat g points)

/-- The source's `shrink_bbox_around_point`. -/
def shrink_bbox_around_point (p : Point) (sizeDeg : ℚ) : Bbox :=
  { minLon := p.1 - sizeDeg, minLat := p.2 - sizeDeg,
    maxLon := p.1 + sizeDeg, maxLat := p.2 + sizeDeg }

/-- The source's `extract_points_from_response`: the `geo` of every
dict-shaped object plus the coordinate pairs of the `rowan` section. -/
def extract_points_from_response (d : ApiData) : List Point :=
  (d.objectsByType.flatMap (fun t => t.objects.filterMap (fun o => o.geo))) ++ d.rowanPoints

/-- Result of `extract_detailed_objects`. -/
structure DetailedObjects where
  scooters : List Obj
  clusters : List Obj
  clusterEmpty : List Obj
deriving DecidableEq

/-- The source's `extract_detailed_objects`: split the objects of the
`objects` section by their `type` tag. -/
def extract_detailed_objects (d : ApiData) : DetailedObjects :=
  d.objectsByType.foldl
    (fun r t =>
      if t.type = some "scooter" then { r with scooters := r.scooters ++ t.objects }
      else if t.type = some "cluster" then { r with clusters := r.clusters ++ t.objects }
      else if t.type = some "cluster_empty" then
        { r with clusterEmpty := r.clusterEmpty ++ t.objects }
      else r)
    ⟨[], [], []⟩

/-- Python truthiness of `obj.get('id')`: the id when it is present and
non-empty, `none` otherwise. -/
def objTruthyId (o : Obj) : Option String :=
  match o.id with
  | none => none
  | some s => if s = "" then none else some s

/-- Stage 3 scooter save: `if scooter_id: all_scooters[scooter_id] = scooter`. -/
def save_stage3_scooter (acc : AccT) (s : Obj) : AccT :=
  match objTruthyId s with
  | some i => dinsert i s acc
  | none => acc

/-- Stage 4 scooter save:
`if scooter_id and scooter_id not in all_scooters: all_scooters[scooter_id] = scooter`. -/
def save_expanded_scooter (acc : AccT) (s : Obj) : AccT :=
  match objTruthyId s with
  | some i => if (dlookup i acc).isSome then acc else dinsert i s acc
  | none => acc

/-- Stage 4 sub-cluster save: `if cluster_id: all_scooters[cluster_id] = sub_cluster`. -/
def save_sub_cluster (acc : AccT) (c : Obj) : AccT :=
  match objTruthyId c with
  | some i => dinsert i c acc
  | none => acc

/-- Stage 3 cluster routing: a cluster whose
`payload.objects_count` (default 0) reaches `min_cluster_size` is
appended to `all_clusters_to_process`; a smaller one is stored as-is
when its id is truthy. -/
def routeCluster (minClusterSize : Int) (st : AccT × List Obj) (c : Obj) :
    AccT × List Obj :=
  let count := c.objectsCount.getD 0
  if count ≥ minClusterSize then (st.1, st.2 ++ [c])
  else
    match objTruthyId c with
    | some i => (dinsert i c st.1, st.2)
    | none => st

/-- Outcome of a step of the run: either `sys.exit(1)` happened (with
the requests issued so far) or the step finished with a new state. -/
inductive StepRes (σ : Type) where
  | exited (log : List Request)
  | ok (s : σ) (log : List Request)
deriving DecidableEq

/-- The request log of a step outcome. -/
def stepResLog {σ : Type} : StepRes σ → List Request
  | .exited l => l
  | .ok _ l => l

/-- The source's `fetch_scooters`: issue one discovery request; map
status 405/401/403 to an exit, a request exception to `None`, success
to the parsed body.  The issued request is appended to the log. -/
def fetch_scooters (oracle : Request → QResult) (log : List Request)
    (req : Request) : StepRes (Option ApiData) :=
  match oracle req with
  | .authExpired => .exited (log ++ [req])
  | .noData => .ok none (log ++ [req])
  | .ok d => .ok (some d) (log ++ [req])

/-- Run a step function over a work list, stopping at the first exit
(`sys.exit` does not return, so no later element is processed). -/
def foldSteps {σ α : Type} (f : σ → α → List Request → StepRes σ) :
    σ → List α → List Request → StepRes σ
  | s, [], log => .ok s log
  | s, x :: xs, log =>
    match f s x log with
    | .exited l => .exited l
    | .ok s2 l => foldSteps f s2 xs l

/-- Centre of a bbox, as computed for `user_location` in the source. -/
def zoneCenter (b : Bbox) : Point :=
  ((b.minLon + b.maxLon) / 2, (b.minLat + b.maxLat) / 2)

/-- Stage 3 body for one hot zone: query it at zoom 17; on `None`
continue unchanged; otherwise store the scooters and route the
clusters. -/
def processZone (oracle : Request → QResult) (minClusterSize : Int)
    (st : AccT × List Obj) (z : Zone) (log : List Request) :
    StepRes (AccT × List Obj) :=
  match fetch_scooters oracle log ⟨z.bbox, zoneCenter z.bbox, 17⟩ with
  | .exited l => .exited l
  | .ok none l => .ok st l
  | .ok (some d) l =>
    let objs := extract_detailed_objects d
    let acc1 := objs.scooters.foldl save_stage3_scooter st.1
    .ok (objs.clusters.foldl (routeCluster minClusterSize) (acc1, st.2)) l

/-- Stage 4 body for one queued cluster: skip it when it has no `geo`;
otherwise query a shrunken bbox at zoom 19; on `None` store the original
cluster as-is; otherwise store the expanded scooters (only when their id
is new) and the sub-clusters. -/
def processCluster (oracle : Request → QResult) (acc : AccT) (c : Obj)
    (log : List Request) : StepRes AccT :=
  match c.geo with
  | none => .ok acc log
  | some geo =>
    match fetch_scooters oracle log ⟨shrink_bbox_around_point geo (1/200), geo, 19⟩ with
    | .exited l => .exited l
    | .ok none l =>
      match objTruthyId c with
      | some i => .ok (dinsert i c acc) l
      | none => .ok acc l
    | .ok (some d) l =>
      let objs := extract_detailed_objects d
      let acc1 := objs.scooters.foldl save_expanded_scooter acc
      .ok (objs.clusters.foldl save_sub_cluster acc1) l

/-- Result of a whole run of `fetch_city_scooters`: either the process
exited on an authorization failure, or the run finished and returned
the `all_scooters` dict. -/
inductive RunResult where
  | exited (log : List Request)
  | finished (acc : AccT) (log : List Request)
deriving DecidableEq

/-- The source's `fetch_city_scooters` (`fetch_city_scooters.py`, and
stages 1-4 of the identically written function of `fetch_scooters.py`):
overview query at zoom 12, grid clustering with cell side 0.02, per-zone
queries at zoom 17, and expansion of the queued clusters at zoom 19. -/
def fetch_city_scooters (oracle : Request → QResult) (cityBbox : Bbox)
    (minClusterSize : Int) : RunResult :=
  match fetch_scooters oracle [] ⟨cityBbox, zoneCenter cityBbox, 12⟩ with
  | .exited l => .exited l
  | .ok none l => .finished [] l
  | .ok (some d) l =>
    let allPoints := extract_points_from_response d
    if allPoints.isEmpty then .finished [] l
    else
      match foldSteps (processZone oracle minClusterSize) ([], [])
          (simple_cluster_points allPoints (1/50)) l with
      | .exited l2 => .exited l2
      | .ok st l2 =>
        match foldSteps (processCluster oracle) st.1 st.2 l2 with
        | .exited l3 => .exited l3
        | .ok acc l3 => .finished acc l3

/-- One GeoJSON point feature as assembled by `save_geojson`; the
`type`, `number`, `objects_count` and `overlay_text` properties are
optional, `id` and `city_id` are always set. -/
structure Feature where
  fid : String
  cityId : String
  coordinates : Point
  ftype : Option String := none
  number : Option String := none
  objectsCount : Option Int := none
  overlayText : Option String := none
deriving DecidableEq

/-- The statistics dict of `save_geojson`. -/
structure Stats where
  scooters : Nat
  clusters : Nat
  clusterScooters : Int
deriving DecidableEq

/-- Characters before the first underscore of a character list. -/
def firstTokAux : List Char → List Char
  | [] => []
  | c :: cs => if c = '_' then [] else c :: firstTokAux cs

/-- Python `obj_id.split('_')[0]`: the text before the first
underscore. -/
def firstTok (s : String) : String := ⟨firstTokAux s.data⟩

/-- Whether the second character list is an initial segment of the
first. -/
def startsWithChars : List Char → List Char → Bool
  | _, [] => true
  | [], _ :: _ => false
  | c :: cs, p :: ps => c == p && startsWithChars cs ps

/-- Python `s.startswith(p)`. -/
def pyStartsWith (s p : String) : Bool := startsWithChars s.data p.data

/-- The source's `save_geojson` of `fetch_city_scooters.py`: skip
entries without `geo`; infer the feature kind from the id's text before
the first underscore; count only the `scooter` and `cluster` kinds in
the statistics. -/
def save_geojson (cityId : String) : AccT → List Feature × Stats
  | [] => ([], ⟨0, 0, 0⟩)
  | (k, o) :: rest =>
    let r := save_geojson cityId rest
    match o.geo with
    | none => r
    | some g =>
      let t := firstTok k
      if t = "scooter" then
        (⟨k, cityId, g, some "scooter", o.payloadNumber, none, none⟩ :: r.1,
         ⟨r.2.scooters + 1, r.2.clusters, r.2.clusterScooters⟩)
      else if t = "cluster" then
        let count := o.objectsCount.getD 0
        (⟨k, cityId, g, some "cluster", none, some count, o.overlayText⟩ :: r.1,
         ⟨r.2.scooters, r.2.clusters + 1, r.2.clusterScooters + count⟩)
      else
        (⟨k, cityId, g, none, none, none, none⟩ :: r.1, r.2)

/-- A value of the `all_scooters` dict of `fetch_scooters.py`: a
discovered record, or the city-metadata dict stored under
`__metadata__` by stage 5. -/
inductive Entry where
  | record (o : Obj)
  | meta (m : CityMeta)
deriving DecidableEq

/-- The `all_scooters` dict of `fetch_scooters.py` after stage 5. -/
abbrev AccE : Type := List (String × Entry)

/-- Result of a run of `fetch_city_scooters` of `fetch_scooters.py`. -/
inductive RunResultE where
  | exited (log : List Request)
  | finished (acc : AccE) (log : List Request)
deriving DecidableEq

/-- Stage 5 enrichment of one object (`fetch_scooters.py`): for a
scooter-prefixed id with a payload number and coordinates, attach the
offer data returned by `/offers/create` (when any); the mutation adds
the `full_info` key and touches nothing else. -/
def enrich_scooter (offers : String → Option FullInfo) (o : Obj) : Obj :=
  if pyStartsWith (o.id.getD "") "scooter_" then
    match o.payloadNumber, o.geo with
    | some n, some _ =>
      match offers n with
      | some fi => { o with fullInfo := some fi }
      | none => o
    | _, _ => o
  else o

/-- Stage 5 city metadata (`fetch_scooters.py`): the operator,
subscription and currency of the first scooter whose offer query
succeeds; empty otherwise. -/
def collectMeta (offers : String → Option FullInfo) : List Obj → CityMeta
  | [] => ⟨"", "", ""⟩
  | s :: rest =>
    match s.payloadNumber, s.geo with
    | some n, some _ =>
      match offers n with
      | some fi => ⟨fi.operator, fi.subscription, fi.currency⟩
      | none => collectMeta offers rest
    | _, _ => collectMeta offers rest

/-- The `fetch_city_scooters` of `fetch_scooters.py`: stages 1-4 are
written identically to `fetch_city_scooters.py` and are reused; stage 5
(only in full-info mode and only when some scooter-prefixed record
exists) enriches the scooters with offer data and stores the city
metadata under the reserved key `__metadata__`. -/
def fetch_city_scooters_v2 (oracle : Request → QResult)
    (offers : String → Option FullInfo) (cityBbox : Bbox)
    (minClusterSize : Int) (withFullInfo : Bool) : RunResultE :=
  match fetch_city_scooters oracle cityBbox minClusterSize with
  | .exited l => .exited l
  | .finished acc l =>
    if withFullInfo then
      let scooterObjs :=
        (acc.map Prod.snd).filter (fun o => pyStartsWith (o.id.getD "") "scooter_")
      if scooterObjs.isEmpty then
        .finished (acc.map (fun kv => (kv.1, Entry.record kv.2))) l
      else
        .finished
          (dinsert "__metadata__" (Entry.meta (collectMeta offers scooterObjs))
            (acc.map (fun kv => (kv.1, Entry.record (enrich_scooter offers kv.2))))) l
    else .finished (acc.map (fun kv => (kv.1, Entry.record kv.2))) l

/-- Feature assembly of `save_geojson` of `fetch_scooters.py` over the
entries that survived the `__metadata__` pop: the metadata value is a
dict without a `geo` key and is skipped; in full-info mode cluster
entries are skipped; the full-info property expansion does not affect
ids or statistics and is not modelled field by field. -/
def save_geojson_v2_entries (cityId : String) (fullInfoMode : Bool) :
    AccE → List Feature × Stats
  | [] => ([], ⟨0, 0, 0⟩)
  | (k, e) :: rest =>
    let r := save_geojson_v2_entries cityId fullInfoMode rest
    match e with
    | .meta _ => r
    | .record o =>
      match o.geo with
      | none => r
      | some g =>
        let t := firstTok k
        if t = "scooter" then
          (⟨k, cityId, g, some "scooter", o.payloadNumber, none, none⟩ :: r.1,
           ⟨r.2.scooters + 1, r.2.clusters, r.2.clusterScooters⟩)
        else if t = "cluster" then
          if fullInfoMode then r
          else
            let count := o.objectsCount.getD 0
            (⟨k, cityId, g, some "cluster", none, some count, o.overlayText⟩ :: r.1,
             ⟨r.2.scooters, r.2.clusters + 1, r.2.clusterScooters + count⟩)
        else
          (⟨k, cityId, g, none, none, none, none⟩ :: r.1, r.2)

/-- The source's `save_geojson` of `fetch_scooters.py`: pop the
reserved `__metadata__` key (dict keys are unique, so removing the key
is filtering it out), then assemble the features. -/
def save_geojson_v2 (cityId : String) (acc : AccE) (fullInfoMode : Bool) :
    List Feature × Stats :=
  save_geojson_v2_entries cityId fullInfoMode
    (acc.filter (fun kv => kv.1 != "__metadata__"))

/-- Closed-interval membership of a point in a bbox. -/
def inBbox (p : Point) (b : Bbox) : Prop :=
  b.minLon ≤ p.1 ∧ p.1 ≤ b.maxLon ∧ b.minLat ≤ p.2 ∧ p.2 ≤ b.maxLat

instance (p : Point) (b : Bbox) : Decidable (inBbox p b) := by
  unfold inBbox; exact inferInstance

/-- Half-open membership of a point in a bbox (closed at the minimum
corner, open at the maximum corner). -/
def inBboxHO (p : Point) (b : Bbox) : Prop :=
  b.minLon ≤ p.1 ∧ p.1 < b.maxLon ∧ b.minLat ≤ p.2 ∧ p.2 < b.maxLat

instance (p : Point) (b : Bbox) : Decidable (inBboxHO p b) := by
  unfold inBboxHO; exact inferInstance

/-- The accumulator of a finished run, `none` for an aborted one. -/
def finishedAcc : RunResult → Option AccT
  | .exited _ => none
  | .finished acc _ => some acc

/-- Whether the run exited via `sys.exit(1)`. -/
def runExited : RunResult → Bool
  | .exited _ => true
  | .finished _ _ => false

/-- Invariant of the `all_scooters` dict: every stored value is an
object whose id is Python-truthy and equal to its key. -/
def AccInv (acc : AccT) : Prop := ∀ k v, (k, v) ∈ acc → objTruthyId v = some k

/-- The last issued request of an aborted run is the one whose response
was an authorization failure. -/
def AuthLast (oracle : Request → QResult) (l : List Request) : Prop :=
  ∃ rest r, l = rest ++ [r] ∧ oracle r = QResult.authExpired

/-- Concrete objects and oracles used by the closed counterexample and
witness runs below. -/
def sW : Obj := { id := some "scooter_1", geo := some ((0:ℚ), (0:ℚ)) }

def zW : Obj := { id := some "zone_7", geo := some ((0:ℚ), (0:ℚ)) }

def accW : AccT := [("scooter_1", sW), ("zone_7", zW)]

/-- Concrete records for the closed counterexample and witness runs. -/
def s1A : Obj := { id := some "scooter_1", geo := some ((0:ℚ), (0:ℚ)), payloadNumber := some "A" }

def s1B : Obj := { id := some "scooter_1", geo := some ((0:ℚ), (0:ℚ)), payloadNumber := some "B" }

def bigCluster : Obj :=
  { id := some "cluster_1", geo := some ((0:ℚ), (0:ℚ)), objectsCount := some 100 }

def sNoGeo : Obj := { id := some "scooter_2" }

def sNum : Obj := { id := some "scooter_1", geo := some ((0:ℚ), (0:ℚ)), payloadNumber := some "N1" }

def sNumFull : Obj :=
  { id := some "scooter_1", geo := some ((0:ℚ), (0:ℚ)), payloadNumber := some "N1",
    fullInfo := some ⟨"Op", "Sub", "RUB"⟩ }

def dOverview : ApiData := { objectsByType := [], rowanPoints := [((0:ℚ), (0:ℚ))] }

def dZoneC1 : ApiData :=
  { objectsByType := [⟨some "scooter", [s1A]⟩, ⟨some "cluster", [bigCluster]⟩],
    rowanPoints := [] }

def dExpandC1 : ApiData := { objectsByType := [⟨some "scooter", [s1B]⟩], rowanPoints := [] }

def dZoneC7 : ApiData := { objectsByType := [⟨some "scooter", [sNoGeo]⟩], rowanPoints := [] }

def dZoneC9 : ApiData := { objectsByType := [⟨some "scooter", [sNum]⟩], rowanPoints := [] }

/-- An environment whose zone scan finds one scooter and one large
cluster, and whose cluster expansion returns the same scooter id with a
different payload. -/
def oracleC1 : Request → QResult := fun r =>
  if r.zoom = 12 then .ok dOverview
  else if r.zoom = 17 then .ok dZoneC1
  else .ok dExpandC1

/-- An environment whose credential expires right before the cluster
expansion query. -/
def oracleC3 : Request → QResult := fun r =>
  if r.zoom = 12 then .ok dOverview
  else if r.zoom = 17 then .ok dZoneC1
  else .authExpired

/-- An environment whose zone scan returns a scooter without
coordinates. -/
def oracleC7 : Request → QResult := fun r =>
  if r.zoom = 12 then .ok dOverview else .ok dZoneC7

/-- An environment for a full-info run with one scooter. -/
def oracleC9 : Request → QResult := fun r =>
  if r.zoom = 12 then .ok dOverview else .ok dZoneC9

def offersC9 : String → Option FullInfo := fun _ => some ⟨"Op", "Sub", "RUB"⟩

def bbox0 : Bbox := ⟨0, 0, 2, 2⟩

def reqOverview : Request := ⟨bbox0, (1, 1), 12⟩

def reqZone : Request := ⟨⟨0, 0, 1/50, 1/50⟩, (1/100, 1/100), 17⟩

def reqExpand : Request := ⟨⟨-(1/200), -(1/200), 1/200, 1/200⟩, ((0:ℚ), (0:ℚ)), 19⟩

-- ## Lemmas and theorems

theorem dlookup_dinsert_self {α : Type} (k : String) (v : α) (a : List (String × α)) :
    dlookup k (dinsert k v a) = some v := by
  induction a with
  | nil => simp [dinsert, dlookup]
  | cons hd tl ih =>
    obtain ⟨k2, v2⟩ := hd
    by_cases h : k2 = k
    · simp [dinsert, h, dlookup]
    · simp [dinsert, h, dlookup, ih]

theorem dlookup_dinsert_ne {α : Type} {k2 k : String} (h : k2 ≠ k) (v : α)
    (a : List (String × α)) : dlookup k2 (dinsert k v a) = dlookup k2 a := by
  have hne : ¬(k = k2) := fun hh => h hh.symm
  induction a with
  | nil => simp [dinsert, dlookup, hne]
  | cons hd tl ih =>
    obtain ⟨k3, v3⟩ := hd
    by_cases h3 : k3 = k
    · subst h3
      simp [dinsert, dlookup, hne]
    · simp [dinsert, dlookup, h3, ih]

theorem mem_dinsert {α : Type} {k i : String} {v x : α} {a : List (String × α)}
    (h : (k, v) ∈ dinsert i x a) : (k = i ∧ v = x) ∨ (k, v) ∈ a := by
  induction a with
  | nil => simp [dinsert] at h; exact Or.inl ⟨h.1, h.2⟩
  | cons hd tl ih =>
    obtain ⟨k2, v2⟩ := hd
    by_cases h2 : k2 = i
    · subst h2
      simp only [dinsert, if_pos rfl] at h
      rcases List.mem_cons.mp h with he | hm
      · exact Or.inl ⟨congrArg Prod.fst he, congrArg Prod.snd he⟩
      · exact Or.inr (List.mem_cons_of_mem _ hm)
    · simp only [dinsert, if_neg h2] at h
      rcases List.mem_cons.mp h with he | hm
      · exact Or.inr (he ▸ List.mem_cons_self _ _)
      · rcases ih hm with h1 | h1
        · exact Or.inl h1
        · exact Or.inr (List.mem_cons_of_mem _ h1)

theorem dinsert_idem {α : Type} (k : String) (v : α) (a : List (String × α)) :
    dinsert k v (dinsert k v a) = dinsert k v a := by
  induction a with
  | nil => simp [dinsert]
  | cons hd tl ih =>
    obtain ⟨k2, v2⟩ := hd
    by_cases h : k2 = k
    · simp [dinsert, h]
    · simp [dinsert, h, ih]

theorem dlookup_isSome_dinsert {α : Type} {k2 : String} (k : String) (v : α)
    (a : List (String × α)) (h : (dlookup k2 a).isSome = true) :
    (dlookup k2 (dinsert k v a)).isSome = true := by
  by_cases he : k2 = k
  · subst he; rw [dlookup_dinsert_self]; rfl
  · rw [dlookup_dinsert_ne he]; exact h

theorem foldSteps_cons_ok {σ α : Type} {f : σ → α → List Request → StepRes σ}
    {s s3 : σ} {x : α} {xs : List α} {log l3 : List Request}
    (hfx : f s x log = .ok s3 l3) :
    foldSteps f s (x :: xs) log = foldSteps f s3 xs l3 := by
  simp only [foldSteps, hfx]

theorem foldSteps_cons_exited {σ α : Type} {f : σ → α → List Request → StepRes σ}
    {s : σ} {x : α} {xs : List α} {log l : List Request}
    (hfx : f s x log = .exited l) :
    foldSteps f s (x :: xs) log = .exited l := by
  simp only [foldSteps, hfx]

theorem foldSteps_ok_preserves {σ α : Type} {f : σ → α → List Request → StepRes σ}
    (P : σ → Prop)
    (hf : ∀ s x log s2 l2, f s x log = .ok s2 l2 → P s → P s2) :
    ∀ (xs : List α) (s : σ) (log : List Request) (s2 : σ) (l2 : List Request),
      foldSteps f s xs log = .ok s2 l2 → P s → P s2 := by
  intro xs
  induction xs with
  | nil =>
    intro s log s2 l2 h hp
    simp only [foldSteps, StepRes.ok.injEq] at h
    exact h.1 ▸ hp
  | cons x xs ih =>
    intro s log s2 l2 h hp
    cases hfx : f s x log with
    | exited l => rw [foldSteps_cons_exited hfx] at h; cases h
    | ok s3 l3 =>
      rw [foldSteps_cons_ok hfx] at h
      exact ih s3 l3 s2 l2 h (hf s x log s3 l3 hfx hp)

theorem foldSteps_exited_last {σ α : Type} {f : σ → α → List Request → StepRes σ}
    (P : List Request → Prop)
    (hf : ∀ s x log l, f s x log = .exited l → P l) :
    ∀ (xs : List α) (s : σ) (log : List Request) (l : List Request),
      foldSteps f s xs log = .exited l → P l := by
  intro xs
  induction xs with
  | nil =>
    intro s log l h
    simp only [foldSteps] at h
    exact StepRes.noConfusion h
  | cons x xs ih =>
    intro s log l h
    cases hfx : f s x log with
    | exited le =>
      rw [foldSteps_cons_exited hfx] at h
      injection h with h2
      exact h2 ▸ hf s x log le hfx
    | ok s3 l3 =>
      rw [foldSteps_cons_ok hfx] at h
      exact ih s3 l3 l h

theorem objTruthyId_spec {o : Obj} {i : String} (h : objTruthyId o = some i) :
    o.id = some i ∧ i ≠ "" := by
  unfold objTruthyId at h
  cases ho : o.id with
  | none => simp only [ho] at h; exact Option.noConfusion h
  | some s =>
    by_cases hs : s = ""
    · simp only [ho, if_pos hs] at h; exact Option.noConfusion h
    · simp only [ho, if_neg hs] at h
      injection h with h2
      subst h2
      exact ⟨rfl, hs⟩

theorem accInv_nil : AccInv [] := by
  intro k v h
  cases h

theorem accInv_dinsert {acc : AccT} {i : String} {x : Obj}
    (h : AccInv acc) (hx : objTruthyId x = some i) : AccInv (dinsert i x acc) := by
  intro k v hm
  rcases mem_dinsert hm with ⟨hk, hv⟩ | hm2
  · subst hk; subst hv; exact hx
  · exact h k v hm2

theorem accInv_save_stage3 {acc : AccT} (h : AccInv acc) (s : Obj) :
    AccInv (save_stage3_scooter acc s) := by
  cases hs : objTruthyId s with
  | none => simpa [save_stage3_scooter, hs] using h
  | some i => simpa [save_stage3_scooter, hs] using accInv_dinsert h hs

theorem accInv_save_expanded {acc : AccT} (h : AccInv acc) (s : Obj) :
    AccInv (save_expanded_scooter acc s) := by
  cases hs : objTruthyId s with
  | none => simpa [save_expanded_scooter, hs] using h
  | some i =>
    by_cases hin : (dlookup i acc).isSome = true
    · simpa [save_expanded_scooter, hs, hin] using h
    · simpa [save_expanded_scooter, hs, hin] using accInv_dinsert h hs

theorem accInv_save_sub_cluster {acc : AccT} (h : AccInv acc) (c : Obj) :
    AccInv (save_sub_cluster acc c) := by
  cases hs : objTruthyId c with
  | none => simpa [save_sub_cluster, hs] using h
  | some i => simpa [save_sub_cluster, hs] using accInv_dinsert h hs

theorem accInv_foldl_save_stage3 (l : List Obj) :
    ∀ acc : AccT, AccInv acc → AccInv (l.foldl save_stage3_scooter acc) := by
  induction l with
  | nil => intro acc h; simpa using h
  | cons x xs ih => intro acc h; exact ih _ (accInv_save_stage3 h x)

theorem accInv_foldl_save_expanded (l : List Obj) :
    ∀ acc : AccT, AccInv acc → AccInv (l.foldl save_expanded_scooter acc) := by
  induction l with
  | nil => intro acc h; simpa using h
  | cons x xs ih => intro acc h; exact ih _ (accInv_save_expanded h x)

theorem accInv_foldl_save_sub_cluster (l : List Obj) :
    ∀ acc : AccT, AccInv acc → AccInv (l.foldl save_sub_cluster acc) := by
  induction l with
  | nil => intro acc h; simpa using h
  | cons x xs ih => intro acc h; exact ih _ (accInv_save_sub_cluster h x)

theorem accInv_routeCluster {st : AccT × List Obj} (h : AccInv st.1) (m : Int) (c : Obj) :
    AccInv (routeCluster m st c).1 := by
  by_cases hc : c.objectsCount.getD 0 ≥ m
  · simpa [routeCluster, hc] using h
  · cases hs : objTruthyId c with
    | none => simpa [routeCluster, hc, hs] using h
    | some i => simpa [routeCluster, hc, hs] using accInv_dinsert h hs

theorem accInv_foldl_routeCluster (m : Int) (l : List Obj) :
    ∀ st : AccT × List Obj, AccInv st.1 → AccInv ((l.foldl (routeCluster m) st).1) := by
  induction l with
  | nil => intro st h; simpa using h
  | cons x xs ih => intro st h; exact ih _ (accInv_routeCluster h m x)

theorem accInv_processZone {oracle : Request → QResult} {m : Int}
    {st st2 : AccT × List Obj} {z : Zone} {log l2 : List Request}
    (hp : processZone oracle m st z log = .ok st2 l2) (h : AccInv st.1) :
    AccInv st2.1 := by
  unfold processZone fetch_scooters at hp
  cases ho : oracle ⟨z.bbox, zoneCenter z.bbox, 17⟩ with
  | authExpired => rw [ho] at hp; cases hp
  | noData =>
    rw [ho] at hp
    simp only [StepRes.ok.injEq] at hp
    exact hp.1 ▸ h
  | ok d =>
    rw [ho] at hp
    simp only [StepRes.ok.injEq] at hp
    rw [← hp.1]
    exact accInv_foldl_routeCluster m _ _
      (accInv_foldl_save_stage3 _ _ h)

theorem accInv_processCluster {oracle : Request → QResult}
    {acc acc2 : AccT} {c : Obj} {log l2 : List Request}
    (hp : processCluster oracle acc c log = .ok acc2 l2) (h : AccInv acc) :
    AccInv acc2 := by
  unfold processCluster fetch_scooters at hp
  cases hg : c.geo with
  | none =>
    simp only [hg, StepRes.ok.injEq] at hp
    exact hp.1 ▸ h
  | some geo =>
    simp only [hg] at hp
    cases ho : oracle ⟨shrink_bbox_around_point geo (1/200), geo, 19⟩ with
    | authExpired => simp only [ho] at hp; exact StepRes.noConfusion hp
    | noData =>
      simp only [ho] at hp
      cases hs : objTruthyId c with
      | none =>
        simp only [hs, StepRes.ok.injEq] at hp
        exact hp.1 ▸ h
      | some i =>
        simp only [hs, StepRes.ok.injEq] at hp
        exact hp.1 ▸ accInv_dinsert h hs
    | ok d =>
      simp only [ho, StepRes.ok.injEq] at hp
      rw [← hp.1]
      exact accInv_foldl_save_sub_cluster _ _ (accInv_foldl_save_expanded _ _ h)

theorem accInv_run {oracle : Request → QResult} {cityBbox : Bbox} {m : Int}
    {acc : AccT} {l : List Request}
    (h : fetch_city_scooters oracle cityBbox m = .finished acc l) : AccInv acc := by
  unfold fetch_city_scooters fetch_scooters at h
  cases ho : oracle ⟨cityBbox, zoneCenter cityBbox, 12⟩ with
  | authExpired => simp only [ho] at h; exact RunResult.noConfusion h
  | noData =>
    simp only [ho, RunResult.finished.injEq] at h
    exact h.1 ▸ accInv_nil
  | ok d =>
    simp only [ho] at h
    by_cases hemp : (extract_points_from_response d).isEmpty
    · simp only [if_pos hemp, RunResult.finished.injEq] at h
      exact h.1 ▸ accInv_nil
    · simp only [if_neg hemp] at h
      cases h3 : foldSteps (processZone oracle m) ([], [])
          (simple_cluster_points (extract_points_from_response d) (1/50))
          ([] ++ [⟨cityBbox, zoneCenter cityBbox, 12⟩]) with
      | exited l2 => simp only [h3] at h; exact RunResult.noConfusion h
      | ok st l2 =>
        simp only [h3] at h
        have hst : AccInv st.1 :=
          foldSteps_ok_preserves (fun s : AccT × List Obj => AccInv s.1)
            (fun s x log s2 lg2 hs hinv => accInv_processZone hs hinv)
            _ _ _ _ _ h3 accInv_nil
        cases h4 : foldSteps (processCluster oracle) st.1 st.2 l2 with
        | exited l3 => simp only [h4] at h; exact RunResult.noConfusion h
        | ok acc3 l3 =>
          simp only [h4, RunResult.finished.injEq] at h
          rw [← h.1]
          exact foldSteps_ok_preserves AccInv
            (fun s x log s2 lg2 hs hinv => accInv_processCluster hs hinv)
            _ _ _ _ _ h4 hst

theorem dlookup_isSome_save_stage3 {acc : AccT} {k : String} (s : Obj)
    (h : (dlookup k acc).isSome = true) :
    (dlookup k (save_stage3_scooter acc s)).isSome = true := by
  cases hs : objTruthyId s with
  | none => simpa [save_stage3_scooter, hs] using h
  | some i => simpa [save_stage3_scooter, hs] using dlookup_isSome_dinsert i s acc h

theorem dlookup_isSome_save_expanded {acc : AccT} {k : String} (s : Obj)
    (h : (dlookup k acc).isSome = true) :
    (dlookup k (save_expanded_scooter acc s)).isSome = true := by
  cases hs : objTruthyId s with
  | none => simpa [save_expanded_scooter, hs] using h
  | some i =>
    by_cases hin : (dlookup i acc).isSome = true
    · simpa [save_expanded_scooter, hs, hin] using h
    · simpa [save_expanded_scooter, hs, hin] using dlookup_isSome_dinsert i s acc h

theorem dlookup_isSome_save_sub_cluster {acc : AccT} {k : String} (c : Obj)
    (h : (dlookup k acc).isSome = true) :
    (dlookup k (save_sub_cluster acc c)).isSome = true := by
  cases hs : objTruthyId c with
  | none => simpa [save_sub_cluster, hs] using h
  | some i => simpa [save_sub_cluster, hs] using dlookup_isSome_dinsert i c acc h

theorem dlookup_isSome_foldl_save_expanded {k : String} (l : List Obj) :
    ∀ acc : AccT, (dlookup k acc).isSome = true →
      (dlookup k (l.foldl save_expanded_scooter acc)).isSome = true := by
  induction l with
  | nil => intro acc h; simpa using h
  | cons x xs ih => intro acc h; exact ih _ (dlookup_isSome_save_expanded x h)

theorem dlookup_isSome_foldl_save_sub_cluster {k : String} (l : List Obj) :
    ∀ acc : AccT, (dlookup k acc).isSome = true →
      (dlookup k (l.foldl save_sub_cluster acc)).isSome = true := by
  induction l with
  | nil => intro acc h; simpa using h
  | cons x xs ih => intro acc h; exact ih _ (dlookup_isSome_save_sub_cluster x h)

theorem dlookup_isSome_processCluster {oracle : Request → QResult} {k : String}
    {acc acc2 : AccT} {c : Obj} {log l2 : List Request}
    (hp : processCluster oracle acc c log = .ok acc2 l2)
    (h : (dlookup k acc).isSome = true) : (dlookup k acc2).isSome = true := by
  unfold processCluster fetch_scooters at hp
  cases hg : c.geo with
  | none =>
    simp only [hg, StepRes.ok.injEq] at hp
    exact hp.1 ▸ h
  | some geo =>
    simp only [hg] at hp
    cases ho : oracle ⟨shrink_bbox_around_point geo (1/200), geo, 19⟩ with
    | authExpired => simp only [ho] at hp; exact StepRes.noConfusion hp
    | noData =>
      simp only [ho] at hp
      cases hs : objTruthyId c with
      | none =>
        simp only [hs, StepRes.ok.injEq] at hp
        exact hp.1 ▸ h
      | some i =>
        simp only [hs, StepRes.ok.injEq] at hp
        exact hp.1 ▸ dlookup_isSome_dinsert i c acc h
    | ok d =>
      simp only [ho, StepRes.ok.injEq] at hp
      rw [← hp.1]
      exact dlookup_isSome_foldl_save_sub_cluster _ _
        (dlookup_isSome_foldl_save_expanded _ _ h)

theorem fetch_scooters_exited {oracle : Request → QResult}
    {log l : List Request} {req : Request}
    (h : fetch_scooters oracle log req = .exited l) :
    l = log ++ [req] ∧ oracle req = .authExpired := by
  unfold fetch_scooters at h
  cases ho : oracle req with
  | authExpired =>
    simp only [ho] at h
    injection h with h2
    exact ⟨h2.symm, rfl⟩
  | noData => simp only [ho] at h; exact StepRes.noConfusion h
  | ok d => simp only [ho] at h; exact StepRes.noConfusion h

theorem processZone_exited {oracle : Request → QResult} {m : Int}
    {st : AccT × List Obj} {z : Zone} {log l : List Request}
    (h : processZone oracle m st z log = .exited l) : AuthLast oracle l := by
  unfold processZone at h
  cases hq : fetch_scooters oracle log ⟨z.bbox, zoneCenter z.bbox, 17⟩ with
  | exited l2 =>
    simp only [hq] at h
    injection h with h2
    subst h2
    obtain ⟨hl, ha⟩ := fetch_scooters_exited hq
    exact ⟨log, _, hl, ha⟩
  | ok od l2 =>
    cases od with
    | none => simp only [hq] at h; exact StepRes.noConfusion h
    | some d => simp only [hq] at h; exact StepRes.noConfusion h

theorem processCluster_exited {oracle : Request → QResult}
    {acc : AccT} {c : Obj} {log l : List Request}
    (h : processCluster oracle acc c log = .exited l) : AuthLast oracle l := by
  unfold processCluster at h
  cases hg : c.geo with
  | none => simp only [hg] at h; exact StepRes.noConfusion h
  | some geo =>
    simp only [hg] at h
    cases hq : fetch_scooters oracle log
        ⟨shrink_bbox_around_point geo (1/200), geo, 19⟩ with
    | exited l2 =>
      simp only [hq] at h
      injection h with h2
      subst h2
      obtain ⟨hl, ha⟩ := fetch_scooters_exited hq
      exact ⟨log, _, hl, ha⟩
    | ok od l2 =>
      cases od with
      | none =>
        simp only [hq] at h
        cases hs : objTruthyId c with
        | none => simp only [hs] at h; exact StepRes.noConfusion h
        | some i => simp only [hs] at h; exact StepRes.noConfusion h
      | some d => simp only [hq] at h; exact StepRes.noConfusion h

theorem run_exited_authLast {oracle : Request → QResult} {cityBbox : Bbox}
    {m : Int} {l : List Request}
    (h : fetch_city_scooters oracle cityBbox m = .exited l) :
    AuthLast oracle l := by
  unfold fetch_city_scooters at h
  cases hq : fetch_scooters oracle [] ⟨cityBbox, zoneCenter cityBbox, 12⟩ with
  | exited l2 =>
    simp only [hq] at h
    injection h with h2
    subst h2
    obtain ⟨hl, ha⟩ := fetch_scooters_exited hq
    exact ⟨[], _, hl, ha⟩
  | ok od l2 =>
    cases od with
    | none => simp only [hq] at h; exact RunResult.noConfusion h
    | some d =>
      simp only [hq] at h
      by_cases hemp : (extract_points_from_response d).isEmpty
      · simp only [if_pos hemp] at h; exact RunResult.noConfusion h
      · simp only [if_neg hemp] at h
        cases h3 : foldSteps (processZone oracle m) ([], [])
            (simple_cluster_points (extract_points_from_response d) (1/50)) l2 with
        | exited l3 =>
          simp only [h3] at h
          injection h with h2
          subst h2
          exact foldSteps_exited_last (AuthLast oracle)
            (fun s x log le hs => processZone_exited hs) _ _ _ _ h3
        | ok st l3 =>
          simp only [h3] at h
          cases h4 : foldSteps (processCluster oracle) st.1 st.2 l3 with
          | exited l4 =>
            simp only [h4] at h
            injection h with h2
            subst h2
            exact foldSteps_exited_last (AuthLast oracle)
              (fun s x log le hs => processCluster_exited hs) _ _ _ _ h4
          | ok acc l4 => simp only [h4] at h; exact RunResult.noConfusion h

theorem foldl_min_le_init (xs : List ℚ) : ∀ a : ℚ, xs.foldl min a ≤ a := by
  induction xs with
  | nil => intro a; simp
  | cons x xs ih =>
    intro a
    exact le_trans (ih (min a x)) (min_le_left a x)

theorem foldl_min_le_mem {x : ℚ} :
    ∀ xs : List ℚ, x ∈ xs → ∀ a : ℚ, xs.foldl min a ≤ x := by
  intro xs
  induction xs with
  | nil => intro hx; cases hx
  | cons y ys ih =>
    intro hx a
    rcases List.mem_cons.mp hx with he | hm
    · subst he
      exact le_trans (foldl_min_le_init ys (min a x)) (min_le_right a x)
    · exact ih hm (min a y)

theorem listMin_le {l : List ℚ} {x : ℚ} (hx : x ∈ l) : listMin l ≤ x := by
  cases l with
  | nil => cases hx
  | cons y ys =>
    show ys.foldl min y ≤ x
    rcases List.mem_cons.mp hx with he | hm
    · subst he; exact foldl_min_le_init ys x
    · exact foldl_min_le_mem ys hm y

theorem pyInt_eq_floor {q : ℚ} (h : 0 ≤ q) : pyInt q = ⌊q⌋ := if_pos h

theorem cell_bounds (m g x : ℚ) (hg : 0 < g) (hm : m ≤ x) :
    m + (pyInt ((x - m) / g) : ℚ) * g ≤ x ∧
      x < m + (pyInt ((x - m) / g) : ℚ) * g + g := by
  have hq : (0:ℚ) ≤ (x - m) / g := div_nonneg (by linarith) hg.le
  rw [pyInt_eq_floor hq]
  have h1 : ((⌊(x - m) / g⌋ : ℤ) : ℚ) ≤ (x - m) / g := Int.floor_le _
  have h2 : (x - m) / g < (⌊(x - m) / g⌋ : ℤ) + 1 := Int.lt_floor_add_one _
  have h3 := (le_div_iff₀ hg).mp h1
  have h4 := (div_lt_iff₀ hg).mp h2
  have h5 : (((⌊(x - m) / g⌋ : ℤ) : ℚ) + 1) * g = ((⌊(x - m) / g⌋ : ℤ) : ℚ) * g + g := by
    ring
  constructor
  · linarith
  · rw [h5] at h4; linarith

theorem cell_unique (m g x : ℚ) (c : Int) (hg : 0 < g)
    (h1 : m + (c : ℚ) * g ≤ x) (h2 : x < m + (c : ℚ) * g + g) :
    c = ⌊(x - m) / g⌋ := by
  symm
  rw [Int.floor_eq_iff]
  constructor
  · rw [le_div_iff₀ hg]; linarith
  · rw [div_lt_iff₀ hg]
    have h3 : ((c : ℚ) + 1) * g = (c : ℚ) * g + g := by ring
    rw [h3]
    linarith

theorem mem_foldl_dedup (l : List (Int × Int)) :
    ∀ (acc : List (Int × Int)) (c : Int × Int),
      (c ∈ l.foldl (fun acc c => if c ∈ acc then acc else acc ++ [c]) acc ↔
        c ∈ acc ∨ c ∈ l) := by
  induction l with
  | nil => intro acc c; simp
  | cons x xs ih =>
    intro acc c
    rw [List.foldl_cons, ih]
    by_cases hx : x ∈ acc
    · rw [if_pos hx]
      constructor
      · rintro (h | h)
        · exact Or.inl h
        · exact Or.inr (List.mem_cons_of_mem _ h)
      · rintro (h | h)
        · exact Or.inl h
        · rcases List.mem_cons.mp h with he | hm
          · exact Or.inl (he ▸ hx)
          · exact Or.inr hm
    · rw [if_neg hx]
      rw [List.mem_append, List.mem_singleton, List.mem_cons]
      tauto

theorem mem_dedupKeepFirst {c : Int × Int} {l : List (Int × Int)} :
    c ∈ dedupKeepFirst l ↔ c ∈ l := by
  unfold dedupKeepFirst
  rw [mem_foldl_dedup]
  simp

theorem simple_cluster_points_eq (points : List Point) (g : ℚ)
    (hne : points.isEmpty = false) :
    simple_cluster_points points g =
      (dedupKeepFirst (points.map (cellOf (listMin (points.map Prod.fst))
          (listMin (points.map Prod.snd)) g))).map
        (zoneOfCell (listMin (points.map Prod.fst))
          (listMin (points.map Prod.snd)) g points) := by
  simp [simple_cluster_points, hne]

/-- C4 (amended): for every non-empty point list and positive cell
size, every input point lies inside the bounding box of the emitted
zone of its assigned cell (no point is dropped), and with half-open
containment (closed at the lower-left corner, open at the upper-right)
it lies in exactly one emitted zone; with closed containment a point on
a shared cell boundary can lie in two emitted zones. -/
theorem grid_partition_coverage (points : List Point) (g : ℚ) (p : Point)
    (hg : 0 < g) (hp : p ∈ points) :
    ∃ z, z ∈ simple_cluster_points points g ∧ inBbox p z.bbox ∧ inBboxHO p z.bbox ∧
      ∀ z2, z2 ∈ simple_cluster_points points g → inBboxHO p z2.bbox → z2 = z := by
  have hne : points.isEmpty = false := by
    cases points with
    | nil => cases hp
    | cons a l => rfl
  have hz := simple_cluster_points_eq points g hne
  have hple1 : listMin (points.map Prod.fst) ≤ p.1 :=
    listMin_le (List.mem_map_of_mem Prod.fst hp)
  have hple2 : listMin (points.map Prod.snd) ≤ p.2 :=
    listMin_le (List.mem_map_of_mem Prod.snd hp)
  have hb1 := cell_bounds (listMin (points.map Prod.fst)) g p.1 hg hple1
  have hb2 := cell_bounds (listMin (points.map Prod.snd)) g p.2 hg hple2
  refine ⟨zoneOfCell (listMin (points.map Prod.fst)) (listMin (points.map Prod.snd)) g
      points (cellOf (listMin (points.map Prod.fst)) (listMin (points.map Prod.snd)) g p),
    ?_, ?_, ?_, ?_⟩
  · rw [hz]
    exact List.mem_map_of_mem _ (mem_dedupKeepFirst.mpr (List.mem_map_of_mem _ hp))
  · simp only [zoneOfCell, cellOf, inBbox]
    exact ⟨hb1.1, le_of_lt hb1.2, hb2.1, le_of_lt hb2.2⟩
  · simp only [zoneOfCell, cellOf, inBboxHO]
    exact ⟨hb1.1, hb1.2, hb2.1, hb2.2⟩
  · intro z2 hz2 hin
    rw [hz] at hz2
    rcases List.mem_map.mp hz2 with ⟨c2, hc2mem, hc2eq⟩
    subst hc2eq
    simp only [zoneOfCell, inBboxHO] at hin
    obtain ⟨hi1, hi2, hi3, hi4⟩ := hin
    have e1 : c2.1 = ⌊(p.1 - listMin (points.map Prod.fst)) / g⌋ :=
      cell_unique (listMin (points.map Prod.fst)) g p.1 c2.1 hg hi1 hi2
    have e2 : c2.2 = ⌊(p.2 - listMin (points.map Prod.snd)) / g⌋ :=
      cell_unique (listMin (points.map Prod.snd)) g p.2 c2.2 hg hi3 hi4
    have e1b : c2.1 = pyInt ((p.1 - listMin (points.map Prod.fst)) / g) := by
      rw [pyInt_eq_floor (div_nonneg (by linarith) hg.le)]
      exact e1
    have e2b : c2.2 = pyInt ((p.2 - listMin (points.map Prod.snd)) / g) := by
      rw [pyInt_eq_floor (div_nonneg (by linarith) hg.le)]
      exact e2
    have hc : c2 = cellOf (listMin (points.map Prod.fst))
        (listMin (points.map Prod.snd)) g p := by
      rcases c2 with ⟨c21, c22⟩
      simp only [cellOf]
      exact Prod.ext e1b e2b
    rw [hc]

/-- C8: merging the same DiscoveryRecord twice into the accumulator, at
any of the three insertion sites of the source, leaves the dict equal to
the result of merging it once, for every record and accumulator state. -/
theorem merge_idempotent (acc : AccT) (r : Obj) :
    save_stage3_scooter (save_stage3_scooter acc r) r = save_stage3_scooter acc r ∧
    save_expanded_scooter (save_expanded_scooter acc r) r = save_expanded_scooter acc r ∧
    save_sub_cluster (save_sub_cluster acc r) r = save_sub_cluster acc r := by
  refine ⟨?_, ?_, ?_⟩
  · cases hs : objTruthyId r with
    | none => simp [save_stage3_scooter, hs]
    | some i => simp [save_stage3_scooter, hs, dinsert_idem]
  · cases hs : objTruthyId r with
    | none => simp [save_expanded_scooter, hs]
    | some i =>
      by_cases hin : (dlookup i acc).isSome = true
      · simp [save_expanded_scooter, hs, hin]
      · simp [save_expanded_scooter, hs, hin, dlookup_dinsert_self]
  · cases hs : objTruthyId r with
    | none => simp [save_sub_cluster, hs]
    | some i => simp [save_sub_cluster, hs, dinsert_idem]

/-- C1 (amended): stage-1-3 scooter saves, small-cluster saves and
stage-4 sub-cluster saves overwrite an existing entry with the same id
(last write wins), but a scooter discovered during stage-4 cluster
expansion is inserted only when its id is absent; an existing entry is
kept and the newer copy is discarded. -/
theorem insertion_write_modes (acc : AccT) (s : Obj) (i : String)
    (h : objTruthyId s = some i) :
    dlookup i (save_stage3_scooter acc s) = some s ∧
    dlookup i (save_sub_cluster acc s) = some s ∧
    ((dlookup i acc).isSome = true → save_expanded_scooter acc s = acc) ∧
    (dlookup i acc = none → dlookup i (save_expanded_scooter acc s) = some s) := by
  refine ⟨?_, ?_, ?_, ?_⟩
  · simp [save_stage3_scooter, h, dlookup_dinsert_self]
  · simp [save_sub_cluster, h, dlookup_dinsert_self]
  · intro hin
    simp [save_expanded_scooter, h, hin]
  · intro hin
    simp [save_expanded_scooter, h, hin, dlookup_dinsert_self]

/-- C1 (amended) witness at a concrete record and empty accumulator. -/
theorem insertion_write_modes_witness :
    objTruthyId { id := some "scooter_1" } = some "scooter_1" ∧
    (dlookup "scooter_1"
        (save_stage3_scooter [] { id := some "scooter_1" }) =
          some { id := some "scooter_1" } ∧
      dlookup "scooter_1"
        (save_sub_cluster [] { id := some "scooter_1" }) =
          some { id := some "scooter_1" } ∧
      ((dlookup "scooter_1" ([] : AccT)).isSome = true →
        save_expanded_scooter [] { id := some "scooter_1" } = []) ∧
      (dlookup "scooter_1" ([] : AccT) = none →
        dlookup "scooter_1"
          (save_expanded_scooter [] { id := some "scooter_1" }) =
            some { id := some "scooter_1" })) :=
  ⟨by decide, insertion_write_modes [] { id := some "scooter_1" } "scooter_1" (by decide)⟩

/-- C5: during the cell-scan stage a cluster whose reported member
count is below `min_cluster_size` is never queued for expansion and is
stored as-is in the accumulator, while a cluster whose count reaches
`min_cluster_size` is always queued for expansion and leaves the
accumulator untouched. -/
theorem threshold_policy (m : Int) (acc : AccT) (q : List Obj) (c : Obj) (i : String)
    (hid : objTruthyId c = some i) :
    (c.objectsCount.getD 0 < m →
      (routeCluster m (acc, q) c).2 = q ∧
      dlookup i (routeCluster m (acc, q) c).1 = some c) ∧
    (m ≤ c.objectsCount.getD 0 →
      routeCluster m (acc, q) c = (acc, q ++ [c])) := by
  constructor
  · intro hlt
    have hge : ¬(c.objectsCount.getD 0 ≥ m) := not_le.mpr hlt
    simp [routeCluster, hge, hid, dlookup_dinsert_self]
  · intro hge
    have hge2 : c.objectsCount.getD 0 ≥ m := hge
    simp [routeCluster, hge2]

/-- C5 witness: a cluster of reported size 10 against threshold 50. -/
theorem threshold_policy_witness :
    objTruthyId { id := some "cluster_1", objectsCount := some 10 } = some "cluster_1" ∧
    ((({ id := some "cluster_1", objectsCount := some 10 } : Obj).objectsCount.getD 0 < 50 →
      (routeCluster 50 ([], []) { id := some "cluster_1", objectsCount := some 10 }).2 = [] ∧
      dlookup "cluster_1"
          (routeCluster 50 ([], []) { id := some "cluster_1", objectsCount := some 10 }).1 =
        some { id := some "cluster_1", objectsCount := some 10 }) ∧
    (50 ≤ ({ id := some "cluster_1", objectsCount := some 10 } : Obj).objectsCount.getD 0 →
      routeCluster 50 ([], []) { id := some "cluster_1", objectsCount := some 10 } =
        ([], [] ++ [{ id := some "cluster_1", objectsCount := some 10 }]))) :=
  ⟨by decide, threshold_policy 50 [] [] { id := some "cluster_1", objectsCount := some 10 }
    "cluster_1" (by decide)⟩

/-- C2: expanding one queued cluster issues at most one further query
(no recursion), which is within the bound `maxZoom - startZoom`
(19 - 17 here), and that query strictly increases the zoom from 17 to
19 and strictly shrinks the region from the 1/50-degree grid cell to a
1/100-degree box, for every oracle, accumulator, cluster and log. -/
theorem expansion_terminates (oracle : Request → QResult) (acc : AccT) (c : Obj)
    (log : List Request) :
    ∃ newReqs : List Request,
      stepResLog (processCluster oracle acc c log) = log ++ newReqs ∧
      newReqs.length ≤ 1 ∧ newReqs.length ≤ 19 - 17 ∧
      ∀ r ∈ newReqs, r.zoom = 19 ∧ 17 < r.zoom ∧
        r.bbox.maxLon - r.bbox.minLon = 1/100 ∧
        r.bbox.maxLat - r.bbox.minLat = 1/100 ∧ (1:ℚ)/100 < 1/50 := by
  unfold processCluster fetch_scooters
  cases hg : c.geo with
  | none =>
    refine ⟨[], by simp [stepResLog], by simp, by simp, by simp⟩
  | some geo =>
    refine ⟨[⟨shrink_bbox_around_point geo (1/200), geo, 19⟩], ?_, by simp, by simp, ?_⟩
    · cases ho : oracle ⟨shrink_bbox_around_point geo (1/200), geo, 19⟩ with
      | authExpired => simp only [ho, stepResLog]
      | noData => cases hs : objTruthyId c <;> simp only [ho, hs, stepResLog]
      | ok d => simp only [ho, stepResLog]
    · intro r hr
      rw [List.mem_singleton] at hr
      subst hr
      refine ⟨rfl, by norm_num, ?_, ?_, by norm_num⟩
      · show geo.1 + 1/200 - (geo.1 - 1/200) = 1/100
        ring
      · show geo.2 + 1/200 - (geo.2 - 1/200) = 1/100
        ring

/-- C6: when the expansion query for a queued cluster with a truthy id
and coordinates fails transiently, the original unexpanded cluster is
stored under its id, the stage-4 loop goes on with the remaining queue,
and the id stays present in the accumulator that the loop returns. -/
theorem expansion_transient_fallback (oracle : Request → QResult) (acc : AccT)
    (c : Obj) (rest : List Obj) (log : List Request) (i : String) (g : Point)
    (hid : objTruthyId c = some i) (hgeo : c.geo = some g)
    (hfail : oracle ⟨shrink_bbox_around_point g (1/200), g, 19⟩ = .noData) :
    processCluster oracle acc c log
      = .ok (dinsert i c acc) (log ++ [⟨shrink_bbox_around_point g (1/200), g, 19⟩]) ∧
    foldSteps (processCluster oracle) acc (c :: rest) log
      = foldSteps (processCluster oracle) (dinsert i c acc) rest
          (log ++ [⟨shrink_bbox_around_point g (1/200), g, 19⟩]) ∧
    (∀ accF lF,
      foldSteps (processCluster oracle) (dinsert i c acc) rest
          (log ++ [⟨shrink_bbox_around_point g (1/200), g, 19⟩]) = .ok accF lF →
      (dlookup i accF).isSome = true) := by
  have h1 : processCluster oracle acc c log
      = .ok (dinsert i c acc) (log ++ [⟨shrink_bbox_around_point g (1/200), g, 19⟩]) := by
    unfold processCluster fetch_scooters
    simp only [hgeo, hfail, hid]
  refine ⟨h1, foldSteps_cons_ok h1, ?_⟩
  intro accF lF hF
  refine foldSteps_ok_preserves (fun a : AccT => (dlookup i a).isSome = true)
    (fun s x lg s2 l2 hs hp => dlookup_isSome_processCluster hs hp)
    _ _ _ _ _ hF ?_
  show (dlookup i (dinsert i c acc)).isSome = true
  rw [dlookup_dinsert_self]
  rfl

/-- C6 witness: a size-100 cluster whose expansion query fails, with an
empty remaining queue. -/
theorem expansion_transient_fallback_witness :
    objTruthyId { id := some "cluster_1", geo := some ((0:ℚ), (0:ℚ)), objectsCount := some 100 }
        = some "cluster_1" ∧
    ({ id := some "cluster_1", geo := some ((0:ℚ), (0:ℚ)), objectsCount := some 100 } : Obj).geo
        = some ((0:ℚ), (0:ℚ)) ∧
    (fun _ : Request => QResult.noData)
        ⟨shrink_bbox_around_point ((0:ℚ), (0:ℚ)) (1/200), ((0:ℚ), (0:ℚ)), 19⟩ = .noData ∧
    (processCluster (fun _ => QResult.noData) []
        { id := some "cluster_1", geo := some ((0:ℚ), (0:ℚ)), objectsCount := some 100 } []
      = .ok (dinsert "cluster_1"
          { id := some "cluster_1", geo := some ((0:ℚ), (0:ℚ)), objectsCount := some 100 } [])
          ([] ++ [⟨shrink_bbox_around_point ((0:ℚ), (0:ℚ)) (1/200), ((0:ℚ), (0:ℚ)), 19⟩]) ∧
    foldSteps (processCluster (fun _ => QResult.noData)) []
        [{ id := some "cluster_1", geo := some ((0:ℚ), (0:ℚ)), objectsCount := some 100 }] []
      = foldSteps (processCluster (fun _ => QResult.noData))
          (dinsert "cluster_1"
            { id := some "cluster_1", geo := some ((0:ℚ), (0:ℚ)), objectsCount := some 100 } [])
          [] ([] ++ [⟨shrink_bbox_around_point ((0:ℚ), (0:ℚ)) (1/200), ((0:ℚ), (0:ℚ)), 19⟩]) ∧
    (∀ accF lF,
      foldSteps (processCluster (fun _ => QResult.noData))
          (dinsert "cluster_1"
            { id := some "cluster_1", geo := some ((0:ℚ), (0:ℚ)), objectsCount := some 100 } [])
          [] ([] ++ [⟨shrink_bbox_around_point ((0:ℚ), (0:ℚ)) (1/200), ((0:ℚ), (0:ℚ)), 19⟩])
        = .ok accF lF →
      (dlookup "cluster_1" accF).isSome = true)) :=
  ⟨by decide, by decide, rfl,
    expansion_transient_fallback (fun _ => QResult.noData) []
      { id := some "cluster_1", geo := some ((0:ℚ), (0:ℚ)), objectsCount := some 100 }
      [] [] "cluster_1" ((0:ℚ), (0:ℚ)) (by decide) (by decide) rfl⟩

theorem save_geojson_features_mono (cid : String) (k2 : String) (o2 : Obj) (tl : AccT)
    {f : Feature} (hf : f ∈ (save_geojson cid tl).1) :
    f ∈ (save_geojson cid ((k2, o2) :: tl)).1 := by
  cases hg2 : o2.geo with
  | none => simp only [save_geojson, hg2]; exact hf
  | some g2 =>
    by_cases h1 : firstTok k2 = "scooter"
    · simp only [save_geojson, hg2, if_pos h1]
      exact List.mem_cons_of_mem _ hf
    · by_cases h2 : firstTok k2 = "cluster"
      · simp only [save_geojson, hg2, if_neg h1, if_pos h2]
        exact List.mem_cons_of_mem _ hf
      · simp only [save_geojson, hg2, if_neg h1, if_neg h2]
        exact List.mem_cons_of_mem _ hf

theorem save_geojson_feature_origin (cid : String) :
    ∀ acc : AccT, ∀ f ∈ (save_geojson cid acc).1,
      ∃ v, (f.fid, v) ∈ acc ∧ v.geo = some f.coordinates := by
  intro acc
  induction acc with
  | nil => intro f hf; simp [save_geojson] at hf
  | cons hd tl ih =>
    obtain ⟨k, o⟩ := hd
    intro f hf
    have step : ∀ hm : f ∈ (save_geojson cid tl).1,
        ∃ v, (f.fid, v) ∈ (k, o) :: tl ∧ v.geo = some f.coordinates := by
      intro hm
      rcases ih f hm with ⟨v, hv, hgv⟩
      exact ⟨v, List.mem_cons_of_mem _ hv, hgv⟩
    cases hg : o.geo with
    | none =>
      simp only [save_geojson, hg] at hf
      exact step hf
    | some g =>
      by_cases h1 : firstTok k = "scooter"
      · simp only [save_geojson, hg, if_pos h1] at hf
        rcases List.mem_cons.mp hf with he | hm
        · subst he
          exact ⟨o, List.mem_cons_self _ _, hg⟩
        · exact step hm
      · by_cases h2 : firstTok k = "cluster"
        · simp only [save_geojson, hg, if_neg h1, if_pos h2] at hf
          rcases List.mem_cons.mp hf with he | hm
          · subst he
            exact ⟨o, List.mem_cons_self _ _, hg⟩
          · exact step hm
        · simp only [save_geojson, hg, if_neg h1, if_neg h2] at hf
          rcases List.mem_cons.mp hf with he | hm
          · subst he
            exact ⟨o, List.mem_cons_self _ _, hg⟩
          · exact step hm

theorem save_geojson_scooter_count (cid : String) :
    ∀ acc : AccT, (save_geojson cid acc).2.scooters
      = acc.countP (fun kv => kv.2.geo.isSome && (firstTok kv.1 == "scooter")) := by
  intro acc
  induction acc with
  | nil => simp [save_geojson]
  | cons hd tl ih =>
    obtain ⟨k, o⟩ := hd
    rw [List.countP_cons]
    cases hg : o.geo with
    | none =>
      simp only [save_geojson, hg]
      simp [hg, ih]
    | some g =>
      by_cases h1 : firstTok k = "scooter"
      · simp only [save_geojson, hg, if_pos h1]
        simp [hg, h1, ih]
      · by_cases h2 : firstTok k = "cluster"
        · simp only [save_geojson, hg, if_neg h1, if_pos h2]
          simp [hg, h1, ih]
        · simp only [save_geojson, hg, if_neg h1, if_neg h2]
          simp [hg, h1, ih]

theorem save_geojson_cluster_count (cid : String) :
    ∀ acc : AccT, (save_geojson cid acc).2.clusters
      = acc.countP (fun kv => kv.2.geo.isSome && (firstTok kv.1 == "cluster")) := by
  intro acc
  induction acc with
  | nil => simp [save_geojson]
  | cons hd tl ih =>
    obtain ⟨k, o⟩ := hd
    rw [List.countP_cons]
    cases hg : o.geo with
    | none =>
      simp only [save_geojson, hg]
      simp [hg, ih]
    | some g =>
      by_cases h1 : firstTok k = "scooter"
      · simp only [save_geojson, hg, if_pos h1]
        have h2 : firstTok k ≠ "cluster" := by rw [h1]; decide
        simp [hg, h1, h2, ih]
      · by_cases h2 : firstTok k = "cluster"
        · simp only [save_geojson, hg, if_neg h1, if_pos h2]
          simp [hg, h2, ih]
        · simp only [save_geojson, hg, if_neg h1, if_neg h2]
          simp [hg, h2, ih]

theorem save_geojson_feature_for (cid : String) :
    ∀ (acc : AccT) (k : String) (o : Obj) (g : Point),
      (k, o) ∈ acc → o.geo = some g →
      ∃ f, f ∈ (save_geojson cid acc).1 ∧ f.fid = k ∧ f.cityId = cid ∧
        f.coordinates = g ∧
        (firstTok k = "scooter" → f.ftype = some "scooter" ∧ f.number = o.payloadNumber) ∧
        (firstTok k = "cluster" → f.ftype = some "cluster" ∧
          f.objectsCount = some (o.objectsCount.getD 0) ∧ f.overlayText = o.overlayText) ∧
        (firstTok k ≠ "scooter" → firstTok k ≠ "cluster" → f.ftype = none) := by
  intro acc
  induction acc with
  | nil => intro k o g hm; cases hm
  | cons hd tl ih =>
    intro k o g hm hgeo
    obtain ⟨k2, o2⟩ := hd
    rcases List.mem_cons.mp hm with he | hm2
    · injection he with hk ho
      subst hk
      subst ho
      by_cases h1 : firstTok k = "scooter"
      · refine ⟨⟨k, cid, g, some "scooter", o.payloadNumber, none, none⟩, ?_, rfl, rfl, rfl,
          fun _ => ⟨rfl, rfl⟩, ?_, ?_⟩
        · simp only [save_geojson, hgeo, if_pos h1]
          exact List.mem_cons_self _ _
        · intro h2
          rw [h1] at h2
          exact absurd h2 (by decide)
        · intro hns _
          exact absurd h1 hns
      · by_cases h2 : firstTok k = "cluster"
        · refine ⟨⟨k, cid, g, some "cluster", none, some (o.objectsCount.getD 0),
            o.overlayText⟩, ?_, rfl, rfl, rfl, ?_, fun _ => ⟨rfl, rfl, rfl⟩, ?_⟩
          · simp only [save_geojson, hgeo, if_neg h1, if_pos h2]
            exact List.mem_cons_self _ _
          · intro h1b
            exact absurd h1b h1
          · intro _ hnc
            exact absurd h2 hnc
        · refine ⟨⟨k, cid, g, none, none, none, none⟩, ?_, rfl, rfl, rfl, ?_, ?_,
            fun _ _ => rfl⟩
          · simp only [save_geojson, hgeo, if_neg h1, if_neg h2]
            exact List.mem_cons_self _ _
          · intro h1b
            exact absurd h1b h1
          · intro h2b
            exact absurd h2b h2
    · rcases ih k o g hm2 hgeo with ⟨f, hf, hrest⟩
      exact ⟨f, save_geojson_features_mono cid k2 o2 tl hf, hrest⟩

/-- C10: `save_geojson` infers the feature kind from the id text before
the first underscore: every stored record with coordinates yields a
feature, typed `scooter` or `cluster` exactly when its id's first token
is that word (with `objects_count` for clusters) and untyped otherwise,
and the scooter/cluster statistics count exactly the coordinate-bearing
records whose id's first token is `scooter` resp. `cluster`. -/
theorem save_geojson_kind_from_id (cid : String) (acc : AccT) (k : String) (o : Obj)
    (g : Point) (hmem : (k, o) ∈ acc) (hgeo : o.geo = some g) :
    (∃ f, f ∈ (save_geojson cid acc).1 ∧ f.fid = k ∧ f.cityId = cid ∧
      f.coordinates = g ∧
      (firstTok k = "scooter" → f.ftype = some "scooter" ∧ f.number = o.payloadNumber) ∧
      (firstTok k = "cluster" → f.ftype = some "cluster" ∧
        f.objectsCount = some (o.objectsCount.getD 0) ∧ f.overlayText = o.overlayText) ∧
      (firstTok k ≠ "scooter" → firstTok k ≠ "cluster" → f.ftype = none)) ∧
    (save_geojson cid acc).2.scooters
      = acc.countP (fun kv => kv.2.geo.isSome && (firstTok kv.1 == "scooter")) ∧
    (save_geojson cid acc).2.clusters
      = acc.countP (fun kv => kv.2.geo.isSome && (firstTok kv.1 == "cluster")) :=
  ⟨save_geojson_feature_for cid acc k o g hmem hgeo,
    save_geojson_scooter_count cid acc, save_geojson_cluster_count cid acc⟩

/-- C10 witness: a record whose id's first token is neither `scooter`
nor `cluster`, alongside a scooter record. -/
theorem save_geojson_kind_from_id_witness :
    ("zone_7", zW) ∈ accW ∧ zW.geo = some ((0:ℚ), (0:ℚ)) ∧
    ((∃ f, f ∈ (save_geojson "c" accW).1 ∧ f.fid = "zone_7" ∧ f.cityId = "c" ∧
      f.coordinates = ((0:ℚ), (0:ℚ)) ∧
      (firstTok "zone_7" = "scooter" → f.ftype = some "scooter" ∧ f.number = zW.payloadNumber) ∧
      (firstTok "zone_7" = "cluster" → f.ftype = some "cluster" ∧
        f.objectsCount = some (zW.objectsCount.getD 0) ∧ f.overlayText = zW.overlayText) ∧
      (firstTok "zone_7" ≠ "scooter" → firstTok "zone_7" ≠ "cluster" → f.ftype = none)) ∧
    (save_geojson "c" accW).2.scooters
      = accW.countP (fun kv => kv.2.geo.isSome && (firstTok kv.1 == "scooter")) ∧
    (save_geojson "c" accW).2.clusters
      = accW.countP (fun kv => kv.2.geo.isSome && (firstTok kv.1 == "cluster"))) :=
  ⟨by decide, by decide,
    save_geojson_kind_from_id "c" accW "zone_7" zW ((0:ℚ), (0:ℚ)) (by decide) (by decide)⟩

/-- C3 (amended): on an authorization failure at any point of a run the
process exits at once: the result is the exited outcome, no accumulator
of any kind is returned to the caller, and the failing request is the
last one ever issued, so the remaining work is halted. -/
theorem auth_expired_halts (oracle : Request → QResult) (cityBbox : Bbox) (m : Int)
    (l : List Request) (h : fetch_city_scooters oracle cityBbox m = .exited l) :
    (∀ acc l2, fetch_city_scooters oracle cityBbox m ≠ .finished acc l2) ∧
    AuthLast oracle l := by
  refine ⟨?_, run_exited_authLast h⟩
  intro acc l2 hc
  rw [h] at hc
  exact RunResult.noConfusion hc

/-- C7 (amended): every record stored by a finished run has a non-empty
id equal to its key, but records without coordinates are stored too;
they are filtered only at serialization, where every emitted feature
takes its coordinates from a stored record that has them. -/
theorem stored_id_and_serialization_filter (oracle : Request → QResult)
    (cityBbox : Bbox) (m : Int) (acc : AccT) (l : List Request) (cid : String)
    (h : fetch_city_scooters oracle cityBbox m = .finished acc l) :
    (∀ k v, (k, v) ∈ acc → v.id = some k ∧ k ≠ "") ∧
    (∀ f, f ∈ (save_geojson cid acc).1 →
      ∃ v, (f.fid, v) ∈ acc ∧ v.geo = some f.coordinates) := by
  refine ⟨?_, fun f hf => save_geojson_feature_origin cid acc f hf⟩
  intro k v hm
  exact objTruthyId_spec (accInv_run h k v hm)

theorem enrich_scooter_id (offers : String → Option FullInfo) (o : Obj) :
    (enrich_scooter offers o).id = o.id := by
  unfold enrich_scooter
  by_cases h : pyStartsWith (o.id.getD "") "scooter_" = true
  · rw [if_pos h]
    cases hn : o.payloadNumber with
    | none => cases hg : o.geo <;> simp only [hn, hg]
    | some n =>
      cases hg : o.geo with
      | none => simp only [hn, hg]
      | some g =>
        simp only [hn, hg]
        cases offers n <;> rfl
  · rw [if_neg h]

theorem save_geojson_v2_fid_mem (cid : String) (fim : Bool) :
    ∀ l : AccE, ∀ f ∈ (save_geojson_v2_entries cid fim l).1, ∃ e, (f.fid, e) ∈ l := by
  intro l
  induction l with
  | nil => intro f hf; simp [save_geojson_v2_entries] at hf
  | cons hd tl ih =>
    obtain ⟨k, e⟩ := hd
    intro f hf
    have step : ∀ hm : f ∈ (save_geojson_v2_entries cid fim tl).1,
        ∃ e2, (f.fid, e2) ∈ (k, e) :: tl := by
      intro hm
      rcases ih f hm with ⟨e2, he2⟩
      exact ⟨e2, List.mem_cons_of_mem _ he2⟩
    cases e with
    | meta mm =>
      simp only [save_geojson_v2_entries] at hf
      exact step hf
    | record o =>
      cases hg : o.geo with
      | none =>
        simp only [save_geojson_v2_entries, hg] at hf
        exact step hf
      | some g =>
        by_cases h1 : firstTok k = "scooter"
        · simp only [save_geojson_v2_entries, hg, if_pos h1] at hf
          rcases List.mem_cons.mp hf with he | hm
          · subst he
            exact ⟨Entry.record o, List.mem_cons_self _ _⟩
          · exact step hm
        · by_cases h2 : firstTok k = "cluster"
          · cases fim with
            | true =>
              simp only [save_geojson_v2_entries, hg, if_neg h1, if_pos h2] at hf
              exact step hf
            | false =>
              simp only [save_geojson_v2_entries, hg, if_neg h1, if_pos h2] at hf
              rcases List.mem_cons.mp hf with he | hm
              · subst he
                exact ⟨Entry.record o, List.mem_cons_self _ _⟩
              · exact step hm
          · simp only [save_geojson_v2_entries, hg, if_neg h1, if_neg h2] at hf
            rcases List.mem_cons.mp hf with he | hm
            · subst he
              exact ⟨Entry.record o, List.mem_cons_self _ _⟩
            · exact step hm

theorem save_geojson_v2_no_metadata (cid : String) (acc : AccE) (fim : Bool) :
    ∀ f ∈ (save_geojson_v2 cid acc fim).1, f.fid ≠ "__metadata__" := by
  intro f hf heq
  rcases save_geojson_v2_fid_mem cid fim _ f hf with ⟨e, he⟩
  have hp := List.of_mem_filter he
  rw [heq] at hp
  simp at hp

/-- C9: in the mapping returned by a `fetch_scooters.py` discovery run
every key equals the id field of the record it maps to, except the
reserved `__metadata__` key, which exists only in full-info mode, maps
to a city-metadata object that is not a discovered record, and is
removed before feature generation: no emitted feature carries it. -/
theorem run_keys_match_ids (oracle : Request → QResult)
    (offers : String → Option FullInfo) (cityBbox : Bbox) (m : Int) (wfi : Bool)
    (cid : String) (fim : Bool) (acc : AccE) (l : List Request)
    (h : fetch_city_scooters_v2 oracle offers cityBbox m wfi = .finished acc l) :
    (∀ k e, (k, e) ∈ acc →
      (∃ o, e = Entry.record o ∧ o.id = some k) ∨
      (k = "__metadata__" ∧ wfi = true ∧ ∃ mm, e = Entry.meta mm)) ∧
    (∀ f, f ∈ (save_geojson_v2 cid acc fim).1 → f.fid ≠ "__metadata__") := by
  refine ⟨?_, fun f hf => save_geojson_v2_no_metadata cid acc fim f hf⟩
  intro k e hm
  unfold fetch_city_scooters_v2 at h
  cases hrun : fetch_city_scooters oracle cityBbox m with
  | exited l0 =>
    simp only [hrun] at h
    exact RunResultE.noConfusion h
  | finished acc0 l0 =>
    simp only [hrun] at h
    have hinv := accInv_run hrun
    have base : (k, e) ∈ acc0.map (fun kv => (kv.1, Entry.record kv.2)) →
        (∃ o, e = Entry.record o ∧ o.id = some k) ∨
        (k = "__metadata__" ∧ wfi = true ∧ ∃ mm, e = Entry.meta mm) := by
      intro hm2
      rcases List.mem_map.mp hm2 with ⟨kv, hkv, heq⟩
      obtain ⟨kk, vv⟩ := kv
      have hk : kk = k := congrArg Prod.fst heq
      have he : Entry.record vv = e := congrArg Prod.snd heq
      left
      refine ⟨vv, he.symm, ?_⟩
      rw [← hk]
      exact (objTruthyId_spec (hinv kk vv hkv)).1
    by_cases hw : wfi = true
    · rw [if_pos hw] at h
      by_cases hsc : ((acc0.map Prod.snd).filter
          (fun o => pyStartsWith (o.id.getD "") "scooter_")).isEmpty
      · rw [if_pos hsc] at h
        injection h with h1 h2
        subst h1
        exact base hm
      · rw [if_neg hsc] at h
        injection h with h1 h2
        subst h1
        rcases mem_dinsert hm with ⟨hk, he⟩ | hm2
        · exact Or.inr ⟨hk, hw, _, he⟩
        · rcases List.mem_map.mp hm2 with ⟨kv, hkv, heq⟩
          obtain ⟨kk, vv⟩ := kv
          have hk : kk = k := congrArg Prod.fst heq
          have he : Entry.record (enrich_scooter offers vv) = e :=
            congrArg Prod.snd heq
          left
          refine ⟨enrich_scooter offers vv, he.symm, ?_⟩
          rw [enrich_scooter_id, ← hk]
          exact (objTruthyId_spec (hinv kk vv hkv)).1
    · rw [if_neg hw] at h
      injection h with h1 h2
      subst h1
      exact base hm

unseal Rat.add Rat.mul Rat.inv Rat.sub in
/-- C1 counterexample: a run in which the cluster-expansion response
carries the already-known id `scooter_1` with a different payload; the
final snapshot keeps the older stage-3 copy `s1A`, not the most
recently merged copy `s1B`, so not every insertion overwrites. -/
theorem expansion_scooter_not_overwritten_cex :
    fetch_city_scooters oracleC1 bbox0 50
      = .finished [("scooter_1", s1A)] [reqOverview, reqZone, reqExpand] ∧
    (extract_detailed_objects dExpandC1).scooters = [s1B] ∧ s1B ≠ s1A := by
  refine ⟨by decide, by decide, by decide⟩

unseal Rat.add Rat.mul Rat.inv Rat.sub in
/-- C3 counterexample: a run whose credential expires at the expansion
query exits the process; the result carries no accumulator at all, even
though the earlier zone scan had already discovered a scooter. -/
theorem auth_abort_returns_nothing_cex :
    fetch_city_scooters oracleC3 bbox0 50 = .exited [reqOverview, reqZone, reqExpand] ∧
    finishedAcc (fetch_city_scooters oracleC3 bbox0 50) = none ∧
    (extract_detailed_objects dZoneC1).scooters = [s1A] := by
  refine ⟨by decide, by decide, by decide⟩

unseal Rat.add Rat.mul Rat.inv Rat.sub in
/-- C3 (amended) witness at the concrete aborted run. -/
theorem auth_expired_halts_witness :
    fetch_city_scooters oracleC3 bbox0 50 = .exited [reqOverview, reqZone, reqExpand] ∧
    ((∀ acc l2, fetch_city_scooters oracleC3 bbox0 50 ≠ .finished acc l2) ∧
      AuthLast oracleC3 [reqOverview, reqZone, reqExpand]) :=
  ⟨by decide,
    auth_expired_halts oracleC3 bbox0 50 [reqOverview, reqZone, reqExpand] (by decide)⟩

unseal Rat.add Rat.mul Rat.inv Rat.sub in
/-- C7 counterexample: a zone-scan response carrying a scooter with an
id but no coordinates; the record is stored in the accumulator all the
same, so records without coordinates are not dropped at ingestion. -/
theorem geoless_record_stored_cex :
    fetch_city_scooters oracleC7 bbox0 50
      = .finished [("scooter_2", sNoGeo)] [reqOverview, reqZone] ∧
    sNoGeo.geo = none ∧
    dlookup "scooter_2" [("scooter_2", sNoGeo)] = some sNoGeo := by
  refine ⟨by decide, by decide, by decide⟩

unseal Rat.add Rat.mul Rat.inv Rat.sub in
/-- C7 (amended) witness at the concrete run that stores a record
without coordinates. -/
theorem stored_id_and_serialization_filter_witness :
    fetch_city_scooters oracleC7 bbox0 50
      = .finished [("scooter_2", sNoGeo)] [reqOverview, reqZone] ∧
    ((∀ k v, (k, v) ∈ ([("scooter_2", sNoGeo)] : AccT) → v.id = some k ∧ k ≠ "") ∧
      (∀ f, f ∈ (save_geojson "c" [("scooter_2", sNoGeo)]).1 →
        ∃ v, (f.fid, v) ∈ ([("scooter_2", sNoGeo)] : AccT) ∧ v.geo = some f.coordinates)) :=
  ⟨by decide,
    stored_id_and_serialization_filter oracleC7 bbox0 50 [("scooter_2", sNoGeo)]
      [reqOverview, reqZone] "c" (by decide)⟩

unseal Rat.add Rat.mul Rat.inv Rat.sub in
/-- C9 witness at a concrete full-info run that stores one scooter and
the reserved metadata entry. -/
theorem run_keys_match_ids_witness :
    fetch_city_scooters_v2 oracleC9 offersC9 bbox0 50 true
      = .finished [("scooter_1", .record sNumFull),
          ("__metadata__", .meta ⟨"Op", "Sub", "RUB"⟩)] [reqOverview, reqZone] ∧
    ((∀ k e, (k, e) ∈ ([("scooter_1", Entry.record sNumFull),
          ("__metadata__", Entry.meta ⟨"Op", "Sub", "RUB"⟩)] : AccE) →
        (∃ o, e = Entry.record o ∧ o.id = some k) ∨
        (k = "__metadata__" ∧ true = true ∧ ∃ mm, e = Entry.meta mm)) ∧
      (∀ f, f ∈ (save_geojson_v2 "c" [("scooter_1", Entry.record sNumFull),
          ("__metadata__", Entry.meta ⟨"Op", "Sub", "RUB"⟩)] false).1 →
        f.fid ≠ "__metadata__")) :=
  ⟨by decide,
    run_keys_match_ids oracleC9 offersC9 bbox0 50 true "c" false
      [("scooter_1", .record sNumFull), ("__metadata__", .meta ⟨"Op", "Sub", "RUB"⟩)]
      [reqOverview, reqZone] (by decide)⟩

unseal Rat.add Rat.mul Rat.inv Rat.sub in
/-- C4 counterexample: with cell size 1 the points (0,0) and (1,0)
yield two zones whose closed bounding boxes both contain the input
point (1,0), so a point is double-covered under closed containment. -/
theorem partition_double_cover_cex :
    simple_cluster_points [((0:ℚ), (0:ℚ)), ((1:ℚ), (0:ℚ))] 1
      = [⟨⟨0, 0, 1, 1⟩, 1⟩, ⟨⟨1, 0, 2, 1⟩, 1⟩] ∧
    inBbox ((1:ℚ), (0:ℚ)) ⟨0, 0, 1, 1⟩ ∧ inBbox ((1:ℚ), (0:ℚ)) ⟨1, 0, 2, 1⟩ ∧
    (⟨⟨0, 0, 1, 1⟩, 1⟩ : Zone) ≠ ⟨⟨1, 0, 2, 1⟩, 1⟩ := by
  refine ⟨by decide, by decide, by decide, by decide⟩

unseal Rat.add Rat.mul Rat.inv Rat.sub in
/-- C4 (amended) witness at a one-point list with cell size 1. -/
theorem grid_partition_coverage_witness :
    (0:ℚ) < 1 ∧ ((0:ℚ), (0:ℚ)) ∈ [((0:ℚ), (0:ℚ))] ∧
    (∃ z, z ∈ simple_cluster_points [((0:ℚ), (0:ℚ))] 1 ∧
      inBbox ((0:ℚ), (0:ℚ)) z.bbox ∧ inBboxHO ((0:ℚ), (0:ℚ)) z.bbox ∧
      ∀ z2, z2 ∈ simple_cluster_points [((0:ℚ), (0:ℚ))] 1 →
        inBboxHO ((0:ℚ), (0:ℚ)) z2.bbox → z2 = z) :=
  ⟨by norm_num, by simp,
    grid_partition_coverage [((0:ℚ), (0:ℚ))] 1 ((0:ℚ), (0:ℚ)) (by norm_num) (by simp)⟩
